import Mathlib

/-!
Verification of the tweetsave-mcp formatting core.

The definitions below are a shallow embedding of the TypeScript sources
`src/utils/formatter.ts` and `src/twitter/client.ts` together with the data
model of `src/types.ts`.  JavaScript strings are modelled as Lean `String`
(a wrapper around `List Char`), JavaScript numbers holding counts as `Nat`
(`Math.round(x)` is half-up on exact values, realised by integer
formulas, which is faithful where its argument is an exactly representable
quotient; `formatNumber`'s division and `toFixed(1)` are modelled at full
IEEE-754 binary64 precision via `jsDivPow`),
and optional fields as `Option`.  JavaScript truthiness on numbers treats
`0` and `undefined` as false; on strings it treats `""` and `undefined` as
false; both are modelled explicitly at each use site, mirroring the code.
The locale-dependent `formatDate` (it calls `Date.toLocaleDateString`, a
runtime/locale behaviour) is passed as an explicit function parameter `fd`
to every definition that uses it; no claim depends on its output.
-/

/-- JavaScript `\s` whitespace class, restricted to the code points the
repository's data can contain (ASCII whitespace plus NBSP). -/
def isWs (c : Char) : Bool :=
  c == ' ' || c == '\t' || c == '\n' || c == '\r' ||
  c == Char.ofNat 11 || c == Char.ofNat 12 || c == Char.ofNat 160

/-- JavaScript `\w` word class `[A-Za-z0-9_]`. -/
def isWordChar (c : Char) : Bool :=
  c.isAlpha || c.isDigit || c == '_'

/-- Decimal digit character, `digitChar d` for `d < 10`. -/
def digitChar (d : Nat) : Char := Char.ofNat (48 + d)

/-- Decimal digits of `n`, most significant first; `fuel` bounds recursion
(`fuel > n` suffices). -/
def natDigits : Nat → Nat → List Char
  | 0, _ => []
  | fuel + 1, n =>
    if n < 10 then [digitChar n]
    else natDigits fuel (n / 10) ++ [digitChar (n % 10)]

/-- Embedding of JavaScript `String(n)` / `n.toString()` for a
non-negative integer. -/
def natStr (n : Nat) : String := ⟨natDigits (n + 1) n⟩

/-- Embedding of JavaScript `Array.prototype.join("\n")`. -/
def joinNl : List String → String
  | [] => ""
  | [s] => s
  | s :: rest => s ++ "\n" ++ joinNl rest

/-- Split a character list at every newline; the lines of a document.
`splitLines "a\nb".data = [['a'], ['b']]`, `splitLines [] = [[]]`. -/
def splitLines : List Char → List (List Char)
  | [] => [[]]
  | c :: cs =>
    if c == '\n' then [] :: splitLines cs
    else
      match splitLines cs with
      | [] => [[c]]
      | l :: ls => (c :: l) :: ls

/-- The lines of a rendered document (split on `'\n'`). -/
def docLines (s : String) : List (List Char) := splitLines s.data

/-- Embedding of JavaScript `s.split(/\s+/)`: the pieces of `s` between
maximal whitespace runs, with an empty piece at either end when `s` starts
or ends with whitespace, and `[""]` on the empty string. -/
def jsSplitWs : List Char → List (List Char)
  | [] => [[]]
  | c :: cs =>
    if isWs c then
      match cs with
      | [] => [] :: [[]]
      | d :: _ => if isWs d then jsSplitWs cs else [] :: jsSplitWs cs
    else
      match jsSplitWs cs with
      | [] => [[c]]
      | p :: ps => (c :: p) :: ps

/-- Embedding of JavaScript `s.replace(/\.0$/, "")`: strip a final `".0"`. -/
def stripDot0 (s : String) : String :=
  if s.data.reverse.take 2 = ['0', '.'] then ⟨s.data.take (s.data.length - 2)⟩
  else s

/-- Binary length of a natural number (`0 ↦ 0`, else `⌊log₂ n⌋ + 1`);
`fuel` bounds recursion (`fuel ≥ n` suffices). -/
def bitLenAux : Nat → Nat → Nat
  | 0, _ => 0
  | fuel + 1, n => if n = 0 then 0 else bitLenAux fuel (n / 2) + 1

/-- Binary length of a natural number. -/
def bitLen (n : Nat) : Nat := bitLenAux n n

/-- Round `a / b` to the nearest integer, ties to even — the rounding of
IEEE-754 binary arithmetic. -/
def roundEven (a b : Nat) : Nat :=
  if 2 * (a % b) < b then a / b
  else if b < 2 * (a % b) then a / b + 1
  else if a / b % 2 = 0 then a / b else a / b + 1

/-- The scaling exponent placing `p / q` at binary64 precision:
`(p / q) * 2 ^ jsExp p q` lies in `(2^52, 2^54)`. -/
def jsExp (p q : Nat) : Nat := 53 + bitLen q - bitLen p

/-- The IEEE-754 binary64 (JavaScript number) quotient `p / q`, as a pair
`(M, f)` whose exact value is `M / 2^f`: the 53-bit significand is the
round-to-nearest-even of `p·2^f / q`, with the scale reduced by one when
the first guess needs 54 bits.  Faithful for `1 ≤ p`, `1 ≤ q` and
quotients in the normal finite range below `2^53`. -/
def jsDivPow (p q : Nat) : Nat × Nat :=
  if 2 ^ 53 ≤ roundEven (p * 2 ^ jsExp p q) q then
    (roundEven (p * 2 ^ (jsExp p q - 1)) q, jsExp p q - 1)
  else (roundEven (p * 2 ^ jsExp p q) q, jsExp p q)

/-- The tenths digit count chosen by `toFixed(1)` for the double `p / q`:
the integer nearest `10x` on the exact value `x = M / 2^f` of the double,
ties to the larger (ECMA-262 Number.prototype.toFixed). -/
def jsTenths (p q : Nat) : Nat :=
  (20 * (jsDivPow p q).1 + 2 ^ (jsDivPow p q).2) / 2 ^ ((jsDivPow p q).2 + 1)

/-- Render a tenths count `t` as the fixed-format string `"{t/10}.{t%10}"`. -/
def fixedStr (t : Nat) : String := natStr (t / 10) ++ "." ++ natStr (t % 10)

/-- Embedding of `(num / d).toFixed(1)`: `toFixed` applied to the IEEE-754
double quotient `num / d`. -/
def jsToFixed1 (num d : Nat) : String := fixedStr (jsTenths num d)

/-- Embedding of `formatNumber` from `src/twitter/client.ts`, with
JavaScript number division and `toFixed(1)` modelled at IEEE-754 binary64
precision. -/
def formatNumber (num : Nat) : String :=
  if 1000000 ≤ num then stripDot0 (jsToFixed1 num 1000000) ++ "M"
  else if 1000 ≤ num then stripDot0 (jsToFixed1 num 1000) ++ "K"
  else natStr num

/-- Embedding of `buildTweetUrl` from `src/twitter/client.ts`. -/
def buildTweetUrl (tweetId username : String) : String :=
  "https://x.com/" ++ username ++ "/status/" ++ tweetId

/-! ## Data model (`src/types.ts`) -/

/-- `TweetAuthor` of `src/types.ts`. -/
structure TweetAuthor where
  id : String
  username : String
  name : String
  avatar_url : Option String
  verified : Option Bool
  followers_count : Option Nat

/-- The `type` union of `TweetMedia`. -/
inductive MediaType where
  | photo
  | video
  | animated_gif
deriving DecidableEq

/-- `TweetMedia` of `src/types.ts`; `duration_ms` in milliseconds. -/
structure TweetMedia where
  type : MediaType
  url : String
  thumbnail_url : Option String
  width : Option Nat
  height : Option Nat
  duration_ms : Option Nat
  alt_text : Option String

/-- `PollOption` of `src/types.ts`.  `percentage` is a JavaScript number;
the model restricts it to integer percentages. -/
structure PollOption where
  label : String
  votes : Nat
  percentage : Nat

/-- `TweetPoll` of `src/types.ts`; `voting_status` is the string union
`"open" | "closed"`. -/
structure TweetPoll where
  options : List PollOption
  total_votes : Nat
  end_time : Option String
  voting_status : String

/-- An element of the `urls` array of `Tweet`. -/
structure TweetUrl where
  url : String
  expanded_url : String
  display_url : String
  title : Option String
  description : Option String
  image : Option String

/-- `Tweet` of `src/types.ts`.  The type is recursive through the optional
`quoted_tweet`, hence an inductive with one constructor. -/
inductive Tweet where
  | mk
    (id : String) (text : String) (author : TweetAuthor) (created_at : String)
    (media : Option (List TweetMedia)) (poll : Option TweetPoll)
    (likes : Nat) (retweets : Nat) (replies : Nat) (quotes : Nat)
    (views : Option Nat) (bookmarks : Option Nat)
    (conversation_id : Option String) (in_reply_to_id : Option String)
    (in_reply_to_user : Option String)
    (quoted_tweet : Option Tweet)
    (urls : Option (List TweetUrl))
    (hashtags : Option (List String)) (mentions : Option (List String))
    (language : Option String) (source : Option String)

namespace Tweet

def id : Tweet → String
  | .mk i _ _ _ _ _ _ _ _ _ _ _ _ _ _ _ _ _ _ _ _ => i

def text : Tweet → String
  | .mk _ t _ _ _ _ _ _ _ _ _ _ _ _ _ _ _ _ _ _ _ => t

def author : Tweet → TweetAuthor
  | .mk _ _ a _ _ _ _ _ _ _ _ _ _ _ _ _ _ _ _ _ _ => a

def created_at : Tweet → String
  | .mk _ _ _ c _ _ _ _ _ _ _ _ _ _ _ _ _ _ _ _ _ => c

def media : Tweet → Option (List TweetMedia)
  | .mk _ _ _ _ m _ _ _ _ _ _ _ _ _ _ _ _ _ _ _ _ => m

def poll : Tweet → Option TweetPoll
  | .mk _ _ _ _ _ p _ _ _ _ _ _ _ _ _ _ _ _ _ _ _ => p

def likes : Tweet → Nat
  | .mk _ _ _ _ _ _ l _ _ _ _ _ _ _ _ _ _ _ _ _ _ => l

def retweets : Tweet → Nat
  | .mk _ _ _ _ _ _ _ r _ _ _ _ _ _ _ _ _ _ _ _ _ => r

def replies : Tweet → Nat
  | .mk _ _ _ _ _ _ _ _ r _ _ _ _ _ _ _ _ _ _ _ _ => r

def views : Tweet → Option Nat
  | .mk _ _ _ _ _ _ _ _ _ _ v _ _ _ _ _ _ _ _ _ _ => v

def quoted_tweet : Tweet → Option Tweet
  | .mk _ _ _ _ _ _ _ _ _ _ _ _ _ _ _ q _ _ _ _ _ => q

def urls : Tweet → Option (List TweetUrl)
  | .mk _ _ _ _ _ _ _ _ _ _ _ _ _ _ _ _ u _ _ _ _ => u

def hashtags : Tweet → Option (List String)
  | .mk _ _ _ _ _ _ _ _ _ _ _ _ _ _ _ _ _ h _ _ _ => h

/-- Same record with the `media` field replaced. -/
def withMedia : Tweet → Option (List TweetMedia) → Tweet
  | .mk i t a c _ p l r rp q v b ci ri ru qt u h mn la s, m =>
    .mk i t a c m p l r rp q v b ci ri ru qt u h mn la s

/-- Same record with the `poll` field replaced. -/
def withPoll : Tweet → Option TweetPoll → Tweet
  | .mk i t a c m _ l r rp q v b ci ri ru qt u h mn la s, p =>
    .mk i t a c m p l r rp q v b ci ri ru qt u h mn la s

/-- Same record with the `views` field replaced. -/
def withViews : Tweet → Option Nat → Tweet
  | .mk i t a c m p l r rp q _ b ci ri ru qt u h mn la s, v =>
    .mk i t a c m p l r rp q v b ci ri ru qt u h mn la s

/-- Same record with the `quoted_tweet` field replaced. -/
def withQuoted : Tweet → Option Tweet → Tweet
  | .mk i t a c m p l r rp q v b ci ri ru _ u h mn la s, qt =>
    .mk i t a c m p l r rp q v b ci ri ru qt u h mn la s

/-- Same record with the `urls` field replaced. -/
def withUrls : Tweet → Option (List TweetUrl) → Tweet
  | .mk i t a c m p l r rp q v b ci ri ru qt _ h mn la s, u =>
    .mk i t a c m p l r rp q v b ci ri ru qt u h mn la s

end Tweet

/-- `TweetReply` of `src/types.ts` (`Tweet` plus a reply `depth`). -/
structure TweetReply where
  toTweet : Tweet
  depth : Nat

def TweetReply.author (r : TweetReply) : TweetAuthor := r.toTweet.author
def TweetReply.text (r : TweetReply) : String := r.toTweet.text
def TweetReply.likes (r : TweetReply) : Nat := r.toTweet.likes
def TweetReply.created_at (r : TweetReply) : String := r.toTweet.created_at

/-- The `author` projection of `BlogPost`. -/
structure BlogAuthor where
  name : String
  username : String
  avatar_url : Option String
  bio : Option String

/-- The `engagement` projection of `BlogPost`. -/
structure BlogEngagement where
  likes : Nat
  retweets : Nat
  replies : Nat
  views : Option Nat

/-- An element of the `comments` array of `BlogPost`. -/
structure BlogComment where
  author : String
  username : String
  text : String
  likes : Nat
  timestamp : String

/-- `BlogPost` of `src/types.ts`; `source_type` is the string union
`"tweet" | "thread"`. -/
structure BlogPost where
  title : String
  subtitle : Option String
  author : BlogAuthor
  published_at : String
  content : String
  source_url : String
  source_type : String
  featured_image : Option String
  images : List String
  videos : List String
  tags : List String
  word_count : Nat
  read_time_minutes : Nat
  engagement : BlogEngagement
  comments : Option (List BlogComment)

/-! ## Formatting core (`src/utils/formatter.ts`) -/

/-- Join a list of strings with a separator (JavaScript `Array.join(sep)`). -/
def joinWith (sep : String) : List String → String
  | [] => ""
  | [s] => s
  | s :: rest => s ++ sep ++ joinWith sep rest

/-- The duration suffix of a video line:
`media.duration_ms ? Math.round(media.duration_ms / 1000) + "s" : ""`
(`0` is falsy; `Math.round` is half-up, `⌊(ms + 500) / 1000⌋`). -/
def durationSuffix : Option Nat → String
  | some ms => if ms == 0 then "" else natStr ((ms + 500) / 1000) ++ "s"
  | none => ""

/-- The lines pushed for one media item inside the `### Media` section of
`tweetToMarkdown`. -/
def mediaItemLines (m : TweetMedia) : List String :=
  match m.type with
  | .photo => ["![Image](" ++ m.url ++ ")"]
  | .video =>
    ("- [Video](" ++ m.url ++ ") (" ++ durationSuffix m.duration_ms ++ ")") ::
    (match m.thumbnail_url with
     | some th => if th == "" then [] else ["  ![Thumbnail](" ++ th ++ ")"]
     | none => [])
  | .animated_gif => ["- [GIF](" ++ m.url ++ ")"]

/-- The `### Media` section of `tweetToMarkdown`
(emitted when `tweet.media && tweet.media.length > 0`). -/
def mediaSecLines (t : Tweet) : List String :=
  match t.media with
  | some ms => if 0 < ms.length then "### Media" :: (ms.flatMap mediaItemLines ++ [""]) else []
  | none => []

/-- `Math.round(option.percentage / 5)` for an integer percentage. -/
def pollBarLen (p : Nat) : Nat := (2 * p + 5) / 10

/-- The two lines pushed per poll option by `tweetToMarkdown`. -/
def pollOptionLines (o : PollOption) : List String :=
  ["- " ++ o.label ++ ": " ++ natStr o.percentage ++ "% (" ++ formatNumber o.votes ++ " votes)",
   "  [" ++ (⟨List.replicate (pollBarLen o.percentage) '='⟩ : String) ++ "]"]

/-- The `### Poll` section of `tweetToMarkdown` (emitted when `tweet.poll`). -/
def pollSecLines (t : Tweet) : List String :=
  match t.poll with
  | some p =>
    "### Poll" ::
      (p.options.flatMap pollOptionLines ++
       ["Total votes: " ++ formatNumber p.total_votes ++ " | Status: " ++ p.voting_status, ""])
  | none => []

/-- `text.split("\n").join("\n> ")` — block-quote the lines of a text. -/
def quoteJoin (s : String) : String :=
  joinWith "\n> " ((splitLines s.data).map (fun l => (⟨l⟩ : String)))

/-- The `### Quoted Tweet` section of `tweetToMarkdown`. -/
def quoteSecLines (t : Tweet) : List String :=
  match t.quoted_tweet with
  | some q => ["### Quoted Tweet", "> **@" ++ q.author.username ++ "**: " ++ quoteJoin q.text, ""]
  | none => []

/-- The lines pushed for one link preview inside the `### Links` section
(`url.title` and `url.description` are tested for truthiness). -/
def urlItemLines (u : TweetUrl) : List String :=
  match u.title with
  | some ti =>
    if ti == "" then ["- [" ++ u.display_url ++ "](" ++ u.expanded_url ++ ")"]
    else
      ("- [" ++ ti ++ "](" ++ u.expanded_url ++ ")") ::
      (match u.description with
       | some d => if d == "" then [] else ["  " ++ (⟨d.data.take 100⟩ : String) ++ "..."]
       | none => [])
  | none => ["- [" ++ u.display_url ++ "](" ++ u.expanded_url ++ ")"]

/-- The `### Links` section of `tweetToMarkdown`
(emitted when `tweet.urls && tweet.urls.length > 0`). -/
def linksSecLines (t : Tweet) : List String :=
  match t.urls with
  | some us => if 0 < us.length then "### Links" :: (us.flatMap urlItemLines ++ [""]) else []
  | none => []

/-- `tweet.views ? ` | ${formatNumber(tweet.views)} views` : ""`
(number truthiness: `0` and `undefined` are falsy). -/
def viewsSuffix : Option Nat → String
  | some n => if n == 0 then "" else " | " ++ formatNumber n ++ " views"
  | none => ""

/-- The engagement-stats lines of `tweetToMarkdown`. -/
def engagementLines (t : Tweet) : List String :=
  ["---",
   "**Engagement**: " ++ formatNumber t.likes ++ " likes | " ++ formatNumber t.retweets ++
     " retweets | " ++ formatNumber t.replies ++ " replies" ++ viewsSuffix t.views,
   ""]

/-- The metadata lines of `tweetToMarkdown` (posted date, optional
hashtags, canonical source link). -/
def metaLines (fd : String → String) (t : Tweet) : List String :=
  ["**Posted**: " ++ fd t.created_at] ++
  (match t.hashtags with
   | some hs =>
     if 0 < hs.length then ["**Hashtags**: " ++ joinWith " " (hs.map (fun h => "#" ++ h))]
     else []
   | none => []) ++
  ["**Source**: " ++ buildTweetUrl t.id t.author.username]

/-- The header lines of `tweetToMarkdown` (author line, blank, text, blank). -/
def headerLines (t : Tweet) : List String :=
  ["## @" ++ t.author.username ++ " (" ++ t.author.name ++ ")", "", t.text, ""]

/-- The `lines` array built by `tweetToMarkdown` before `join("\n")`. -/
def tweetToMarkdownLines (fd : String → String) (t : Tweet) : List String :=
  headerLines t ++ mediaSecLines t ++ pollSecLines t ++ quoteSecLines t ++
  linksSecLines t ++ engagementLines t ++ metaLines fd t

/-- Embedding of `tweetToMarkdown`; `fd` stands for `formatDate`. -/
def tweetToMarkdown (fd : String → String) (t : Tweet) : String :=
  joinNl (tweetToMarkdownLines fd t)

/-! ### `generateTitle` -/

/-- One left-to-right pass of `text.replace(/https?:\/\/\S+/g, "")`:
at each position, a match is `http://` or `https://` followed by at least
one non-whitespace character, consumed together with the maximal
non-whitespace run; `fuel` bounds recursion (`fuel ≥ length` suffices). -/
def stripUrlsAux : Nat → List Char → List Char
  | 0, l => l
  | fuel + 1, l =>
    match l with
    | [] => []
    | c :: cs =>
      if "https://".data.isPrefixOf l || "http://".data.isPrefixOf l then
        let rest := if "https://".data.isPrefixOf l then l.drop 8 else l.drop 7
        if (rest.takeWhile (fun c => !isWs c)).isEmpty then c :: stripUrlsAux fuel cs
        else stripUrlsAux fuel (rest.dropWhile (fun c => !isWs c))
      else c :: stripUrlsAux fuel cs

/-- `text.replace(/https?:\/\/\S+/g, "")`. -/
def stripUrls (l : List Char) : List Char := stripUrlsAux l.length l

/-- `cleaned.replace(/^(@\w+\s*)+/, "")`: strip a leading run of mention
tokens, each `@` plus at least one word character plus optional whitespace. -/
def stripLeadingMentionsAux : Nat → List Char → List Char
  | 0, l => l
  | fuel + 1, l =>
    match l with
    | '@' :: rest =>
      if (rest.takeWhile isWordChar).isEmpty then l
      else stripLeadingMentionsAux fuel ((rest.dropWhile isWordChar).dropWhile isWs)
    | _ => l

/-- `cleaned.replace(/^(@\w+\s*)+/, "")`. -/
def stripLeadingMentions (l : List Char) : List Char := stripLeadingMentionsAux l.length l

/-- `cleaned.replace(/#\w+/g, "")`: remove every `#` followed by at least
one word character together with the maximal word-character run. -/
def stripHashtagsAux : Nat → List Char → List Char
  | 0, l => l
  | fuel + 1, l =>
    match l with
    | [] => []
    | '#' :: rest =>
      if (rest.takeWhile isWordChar).isEmpty then '#' :: stripHashtagsAux fuel rest
      else stripHashtagsAux fuel (rest.dropWhile isWordChar)
    | c :: cs => c :: stripHashtagsAux fuel cs

/-- `cleaned.replace(/#\w+/g, "")`. -/
def stripHashtags (l : List Char) : List Char := stripHashtagsAux l.length l

/-- JavaScript `String.prototype.trim()`. -/
def jsTrim (l : List Char) : List Char :=
  ((l.dropWhile isWs).reverse.dropWhile isWs).reverse

/-- `replace(/\s+/g, " ")`: collapse each maximal whitespace run to one
space. -/
def collapseWs : List Char → List Char
  | [] => []
  | c :: cs =>
    if isWs c then
      match cs with
      | [] => [' ']
      | d :: _ => if isWs d then collapseWs cs else ' ' :: collapseWs cs
    else c :: collapseWs cs

/-- The cleaning pipeline of `generateTitle`: strip URLs, then a leading
mention run, then hashtags, then trim and collapse whitespace. -/
def cleanTitle (s : String) : String :=
  ⟨collapseWs (jsTrim (stripHashtags (stripLeadingMentions (stripUrls s.data))))⟩

/-- `cleaned.match(/^[^.!?]+[.!?]?/)`: at least one leading non-terminator
character, then one optional sentence terminator. -/
def firstSentenceOf (l : List Char) : Option (List Char) :=
  let pre := l.takeWhile (fun c => !(c == '.' || c == '!' || c == '?'))
  if pre.isEmpty then none
  else
    match l.drop pre.length with
    | c :: _ => some (pre ++ [c])
    | [] => some pre

/-- `truncated.lastIndexOf(" ")`, as an `Option` (`none` for `-1`). -/
def lastSpaceIdx (l : List Char) : Option Nat :=
  match l.reverse.findIdx? (fun c => c == ' ') with
  | some j => some (l.length - 1 - j)
  | none => none

/-- The truncation tail of `generateTitle` (reached when the
first-sentence rule does not fire): truncate to 60 characters, return up
to the last space when that space index exceeds 30, else the plain
60-character prefix, with `"..."` appended exactly when the cleaned text
exceeds 60 characters. -/
def titleTrunc (cl : List Char) : String :=
  if 60 < cl.length then
    (match lastSpaceIdx (cl.take 60) with
     | some i =>
       if 30 < i then String.mk ((cl.take 60).take i) ++ "..."
       else String.mk (cl.take 60) ++ "..."
     | none => String.mk (cl.take 60) ++ "...")
  else String.mk (cl.take 60)

/-- Embedding of `generateTitle` from `src/utils/formatter.ts`. -/
def generateTitle (text : String) : String :=
  if (cleanTitle text).data.length < 10 then "A Thread on X"
  else
    match firstSentenceOf (cleanTitle text).data with
    | some fs =>
      if fs.length ≤ 80 then String.mk (jsTrim fs) else titleTrunc (cleanTitle text).data
    | none => titleTrunc (cleanTitle text).data

/-! ### `tweetToBlogPost` -/

/-- The content parts pushed for one media item by `tweetToBlogPost`
(GIFs add nothing here). -/
def blogMediaParts (m : TweetMedia) : List String :=
  match m.type with
  | .photo => ["![](" ++ m.url ++ ")", ""]
  | .video => ["[Watch Video](" ++ m.url ++ ")", ""]
  | .animated_gif => []

/-- The poll content parts pushed by `tweetToBlogPost`. -/
def blogPollParts (p : TweetPoll) : List String :=
  ["## Poll Results", ""] ++
  p.options.map (fun o => "- **" ++ o.label ++ "**: " ++ natStr o.percentage ++ "%") ++
  ["", "*" ++ formatNumber p.total_votes ++ " total votes*", ""]

/-- The quoted-tweet content parts pushed by `tweetToBlogPost`. -/
def blogQuoteParts (q : Tweet) : List String :=
  ["---", "", "> **@" ++ q.author.username ++ "** wrote:", "> " ++ quoteJoin q.text, ""]

/-- The media content parts of `tweetToBlogPost` (the loop body runs when
`tweet.media` is present). -/
def blogMediaSec (t : Tweet) : List String :=
  match t.media with | some ms => ms.flatMap blogMediaParts | none => []

/-- The poll content parts of `tweetToBlogPost`. -/
def blogPollSec (t : Tweet) : List String :=
  match t.poll with | some p => blogPollParts p | none => []

/-- The quoted-tweet content parts of `tweetToBlogPost`. -/
def blogQuoteSec (t : Tweet) : List String :=
  match t.quoted_tweet with | some q => blogQuoteParts q | none => []

/-- The `contentParts` array built by `tweetToBlogPost` before `join("\n")`. -/
def blogContentParts (t : Tweet) : List String :=
  [t.text, ""] ++ blogMediaSec t ++ blogPollSec t ++ blogQuoteSec t

/-- `content.split(/\s+/).length`. -/
def wordCountOf (content : String) : Nat := (jsSplitWs content.data).length

/-- `Math.max(1, Math.ceil(wordCount / 200))`. -/
def readTimeOf (wc : Nat) : Nat := max 1 ((wc + 199) / 200)

/-- Embedding of `tweetToBlogPost`; `fd` stands for `formatDate`; the
source defaults are `includeReplies = true`, `maxReplies = 10`. -/
def tweetToBlogPost (fd : String → String) (t : Tweet) (replies : List TweetReply)
    (includeReplies : Bool) (maxReplies : Nat) : BlogPost :=
  let content := joinNl (blogContentParts t)
  let wordCount := wordCountOf content
  let images :=
    match t.media with
    | some ms => (ms.filter (fun m => m.type == .photo)).map (fun m => m.url)
    | none => []
  let videos :=
    match t.media with
    | some ms => (ms.filter (fun m => m.type == .video || m.type == .animated_gif)).map
        (fun m => m.url)
    | none => []
  { title := generateTitle t.text
    subtitle := some ("A post by @" ++ t.author.username)
    author := { name := t.author.name, username := t.author.username,
                avatar_url := t.author.avatar_url, bio := none }
    published_at := fd t.created_at
    content := content
    source_url := buildTweetUrl t.id t.author.username
    source_type := "tweet"
    featured_image := images.head?
    images := images
    videos := videos
    tags := t.hashtags.getD []
    word_count := wordCount
    read_time_minutes := readTimeOf wordCount
    engagement := { likes := t.likes, retweets := t.retweets, replies := t.replies,
                    views := t.views }
    comments :=
      if includeReplies then
        some ((replies.take maxReplies).map (fun r =>
          { author := r.author.name, username := r.author.username, text := r.text,
            likes := r.likes, timestamp := fd r.created_at }))
      else none }

/-! ### `blogPostToMarkdown` and `tweetsToFeed` -/

/-- The lines pushed per comment by `blogPostToMarkdown`. -/
def commentLines (c : BlogComment) : List String :=
  ["### @" ++ c.username, "*" ++ c.timestamp ++ "* | " ++ formatNumber c.likes ++ " likes",
   "", c.text, ""]

/-- The `lines` array built by `blogPostToMarkdown` before `join("\n")`. -/
def blogPostToMarkdownLines (post : BlogPost) : List String :=
  ["# " ++ post.title, ""] ++
  (match post.subtitle with
   | some s => if s == "" then [] else ["*" ++ s ++ "*", ""]
   | none => []) ++
  ["**Author**: " ++ post.author.name ++ " ([@" ++ post.author.username ++
     "](https://x.com/" ++ post.author.username ++ "))",
   "**Published**: " ++ post.published_at,
   "**Read time**: " ++ natStr post.read_time_minutes ++ " min read",
   ""] ++
  (if 0 < post.tags.length then
    ["**Tags**: " ++ joinWith " " (post.tags.map (fun t => "#" ++ t)), ""]
   else []) ++
  ["---", ""] ++
  (match post.featured_image with
   | some fi => if fi == "" then [] else ["![Featured Image](" ++ fi ++ ")", ""]
   | none => []) ++
  [post.content, "", "---", "", "## Engagement", "",
   "- **Likes**: " ++ formatNumber post.engagement.likes,
   "- **Retweets**: " ++ formatNumber post.engagement.retweets,
   "- **Replies**: " ++ formatNumber post.engagement.replies] ++
  (match post.engagement.views with
   | some v => if v == 0 then [] else ["- **Views**: " ++ formatNumber v]
   | none => []) ++
  [""] ++
  (match post.comments with
   | some cs => if 0 < cs.length then "## Comments" :: ("" :: cs.flatMap commentLines) else []
   | none => []) ++
  ["---", "", "*Originally posted on X: [View original](" ++ post.source_url ++ ")*"]

/-- Embedding of `blogPostToMarkdown` (it uses no date formatting). -/
def blogPostToMarkdown (post : BlogPost) : String :=
  joinNl (blogPostToMarkdownLines post)

/-- Embedding of `tweetsToFeed`; `fd` stands for `formatDate`. -/
def tweetsToFeed (fd : String → String) (tweets : List Tweet) : String :=
  joinNl (["# Tweet Feed", "", "*" ++ natStr tweets.length ++ " tweets*", "", "---", ""] ++
    tweets.flatMap (fun t => [tweetToMarkdown fd t, "", "---", ""]))

/-! ## Spec-side definitions and basic string lemmas -/

/-- Modelled from the spec: the whitespace-token count of a string is the
number of maximal non-whitespace runs; `inRun` records whether the
previous character was non-whitespace. -/
def nonWsRunsAux (inRun : Bool) : List Char → Nat
  | [] => 0
  | c :: cs =>
    if isWs c then nonWsRunsAux false cs
    else (if inRun then 0 else 1) + nonWsRunsAux true cs

/-- Modelled from the spec: the number of maximal non-whitespace runs. -/
def wsTokenCount (s : String) : Nat := nonWsRunsAux false s.data

/-- Number of maximal whitespace runs; `inRun` records whether the
previous character was whitespace. -/
def wsRunsAux (inRun : Bool) : List Char → Nat
  | [] => 0
  | c :: cs =>
    if isWs c then (if inRun then 0 else 1) + wsRunsAux true cs
    else wsRunsAux false cs

/-- `1` when the list starts with a whitespace character, else `0`. -/
def leadWsCount : List Char → Nat
  | [] => 0
  | c :: _ => if isWs c then 1 else 0

/-- Whether the last character of the list is whitespace. -/
def lastWs : List Char → Bool
  | [] => false
  | [c] => isWs c
  | _ :: c :: cs => lastWs (c :: cs)

/-- Modelled from the spec: `n / d` rounded to one decimal (half-up) with a
trailing `".0"` stripped. -/
def specRound1 (n d : Nat) : String :=
  if (20 * n + d) / (2 * d) % 10 = 0 then natStr ((20 * n + d) / (2 * d) / 10)
  else natStr ((20 * n + d) / (2 * d) / 10) ++ "." ++ natStr ((20 * n + d) / (2 * d) % 10)

theorem strDataAppend (a b : String) : (a ++ b).data = a.data ++ b.data := rfl

theorem strExt {a b : String} (h : a.data = b.data) : a = b := by
  cases a; cases b; exact congrArg String.mk h

theorem natStr_lt10 {d : Nat} (h : d < 10) : natStr d = String.mk [digitChar d] := by
  unfold natStr natDigits
  rw [if_pos h]

/-- Stripping `".0"` from a string that ends in `".0"`. -/
theorem stripDot0_dot0 (s : String) : stripDot0 (s ++ ".0") = s := by
  have hd : (s ++ ".0").data = s.data ++ ['.', '0'] := rfl
  unfold stripDot0
  rw [if_pos]
  · apply strExt
    simp [hd]
  · simp [hd, List.reverse_append]

/-- `stripDot0` leaves a string ending in a nonzero digit unchanged. -/
theorem stripDot0_digit (s : String) {d : Nat} (h1 : d < 10) (h2 : d ≠ 0) :
    stripDot0 (s ++ "." ++ natStr d) = s ++ "." ++ natStr d := by
  unfold stripDot0
  rw [if_neg]
  rw [natStr_lt10 h1]
  have hd : (s ++ "." ++ String.mk [digitChar d]).data = s.data ++ ['.'] ++ [digitChar d] := rfl
  rw [hd]
  simp only [List.reverse_append, List.reverse_cons, List.reverse_nil, List.nil_append,
    List.cons_append, List.take]
  intro h
  have : digitChar d = '0' := by
    have := List.head_eq_of_cons_eq h
    exact this
  interval_cases d <;> simp_all <;> exact absurd this (by decide)

/-- Stripping the trailing `".0"` from a fixed-format tenths string keeps
only the integer part exactly when the tenths digit is zero. -/
theorem stripDot0_fixedStr (t : Nat) :
    stripDot0 (fixedStr t) = if t % 10 = 0 then natStr (t / 10) else fixedStr t := by
  unfold fixedStr
  by_cases h : t % 10 = 0
  · rw [if_pos h, h]
    have h0 : natStr 0 = "0" := by decide
    rw [h0]
    have : natStr (t / 10) ++ "." ++ "0" = natStr (t / 10) ++ ".0" := by
      apply strExt
      simp [strDataAppend]
    rw [this, stripDot0_dot0]
  · rw [if_neg h]
    exact stripDot0_digit _ (Nat.mod_lt _ (by norm_num)) h

/-! ## Sample inputs used by witnesses and counterexamples -/

/-- A concrete stand-in for `formatDate` (its output never matters to the
claims; any newline-free function works). -/
def sampleFd : String → String := fun _ => "January 1, 2024 at 12:00 PM"

def sampleAuthor : TweetAuthor :=
  { id := "1001", username := "alice", name := "Alice", avatar_url := none,
    verified := none, followers_count := none }

/-- A minimal well-formed tweet with the given text and no optional data. -/
def mkSimpleTweet (text : String) : Tweet :=
  .mk "42" text sampleAuthor "2024-01-01T00:00:00Z" none none 5 2 1 0 none none
    none none none none none none none none none

/-- A video media item with no `duration_ms` and no thumbnail. -/
def sampleVideoNoDur : TweetMedia :=
  { type := .video, url := "https://video.example/v1", thumbnail_url := none,
    width := none, height := none, duration_ms := none, alt_text := none }

def samplePoll : TweetPoll :=
  { options := [{ label := "Yes", votes := 470, percentage := 47 },
                { label := "No", votes := 530, percentage := 100 }],
    total_votes := 1000, end_time := none, voting_status := "closed" }

/-- The sample tweet carrying `samplePoll`. -/
def samplePollTweet : Tweet := (mkSimpleTweet "poll question here").withPoll (some samplePoll)

/-! ## Claims -/

theorem bitLenAux_le {fuel n k : Nat} (h : n < 2 ^ k) : bitLenAux fuel n ≤ k := by
  induction fuel generalizing n k with
  | zero => exact Nat.zero_le k
  | succ f ih =>
    by_cases hn : n = 0
    · simp [bitLenAux, hn]
    · rw [show bitLenAux (f + 1) n = (if n = 0 then 0 else bitLenAux f (n / 2) + 1) from rfl,
        if_neg hn]
      cases k with
      | zero => exact absurd (by omega : n = 0) hn
      | succ k2 =>
        have h2 : n / 2 < 2 ^ k2 := by
          have e : (2:Nat) ^ (k2 + 1) = 2 * 2 ^ k2 := by ring
          omega
        have := ih h2
        omega

theorem bitLen_le {n k : Nat} (h : n < 2 ^ k) : bitLen n ≤ k := bitLenAux_le h

/-- Rounding an exact quotient is plain division. -/
theorem roundEven_dvd {a b : Nat} (hb : 0 < b) (h : b ∣ a) : roundEven a b = a / b := by
  obtain ⟨c, rfl⟩ := h
  have h0 : b * c % b = 0 := Nat.mul_mod_right b c
  unfold roundEven
  rw [h0, if_pos (by omega)]

/-- When the quotient `p / q` is exactly representable at either candidate
scale, the modelled double is exact: `M / 2^f = p / q`. -/
theorem jsDivPow_exact {p q : Nat} (hq : 0 < q)
    (h1 : q ∣ p * 2 ^ (jsExp p q - 1)) (h2 : q ∣ p * 2 ^ jsExp p q) :
    (jsDivPow p q).1 * q = p * 2 ^ (jsDivPow p q).2 := by
  unfold jsDivPow
  split
  · show roundEven (p * 2 ^ (jsExp p q - 1)) q * q = p * 2 ^ (jsExp p q - 1)
    rw [roundEven_dvd hq h1]
    exact Nat.div_mul_cancel h1
  · show roundEven (p * 2 ^ jsExp p q) q * q = p * 2 ^ jsExp p q
    rw [roundEven_dvd hq h2]
    exact Nat.div_mul_cancel h2

/-- On an exactly representable quotient, the `toFixed(1)` tenths value of
the double agrees with exact half-up decimal rounding of `n / d`. -/
theorem jsTenths_exact {n d : Nat} (hd : 0 < d)
    (h1 : d ∣ n * 2 ^ (jsExp n d - 1)) (h2 : d ∣ n * 2 ^ jsExp n d) :
    jsTenths n d = (20 * n + d) / (2 * d) := by
  have hM := jsDivPow_exact hd h1 h2
  unfold jsTenths
  have key : d * (20 * (jsDivPow n d).1 + 2 ^ (jsDivPow n d).2) =
      2 ^ (jsDivPow n d).2 * (20 * n + d) :=
    calc d * (20 * (jsDivPow n d).1 + 2 ^ (jsDivPow n d).2)
        = 20 * ((jsDivPow n d).1 * d) + d * 2 ^ (jsDivPow n d).2 := by ring
      _ = 20 * (n * 2 ^ (jsDivPow n d).2) + d * 2 ^ (jsDivPow n d).2 := by rw [hM]
      _ = 2 ^ (jsDivPow n d).2 * (20 * n + d) := by ring
  have hden : d * 2 ^ ((jsDivPow n d).2 + 1) = 2 ^ (jsDivPow n d).2 * (2 * d) := by ring
  calc (20 * (jsDivPow n d).1 + 2 ^ (jsDivPow n d).2) / 2 ^ ((jsDivPow n d).2 + 1)
      = d * (20 * (jsDivPow n d).1 + 2 ^ (jsDivPow n d).2) /
          (d * 2 ^ ((jsDivPow n d).2 + 1)) := (Nat.mul_div_mul_left _ _ hd).symm
    _ = 2 ^ (jsDivPow n d).2 * (20 * n + d) / (2 ^ (jsDivPow n d).2 * (2 * d)) := by
        rw [key, hden]
    _ = (20 * n + d) / (2 * d) := Nat.mul_div_mul_left _ _ (Nat.pos_pow_of_pos _ (by omega))

/-- C5 counterexample: at 1150 the program renders "1.1K" — the IEEE-754
double 1150/1000 lies just below 1.15, so `toFixed(1)` gives "1.1" — while
exact rounding of 1150/1000 to one decimal gives 1.2; likewise "1.1M" at
1150000.  The claim's general K/M clauses fail at these decimal ties. -/
theorem C5_counterexample :
    formatNumber 1150 = "1.1K" ∧
    specRound1 1150 1000 ++ "K" = "1.2K" ∧
    formatNumber 1150 ≠ specRound1 1150 1000 ++ "K" ∧
    formatNumber 1150000 = "1.1M" ∧
    specRound1 1150000 1000000 ++ "M" = "1.2M" ∧
    formatNumber 1150000 ≠ specRound1 1150000 1000000 ++ "M" := by
  refine ⟨?_, ?_, ?_, ?_, ?_, ?_⟩ <;> decide

/-- C5 (amended): `formatNumber` maps 999 ↦ "999", 1000 ↦ "1K",
1500 ↦ "1.5K", 1000000 ↦ "1M", 2500000 ↦ "2.5M"; in general, for
`n ≥ 1,000,000` it renders `toFixed(1)` of the IEEE-754 double quotient
`n / 1e6` — not the exact decimal rounding — with a trailing ".0"
stripped, plus "M"; for `1,000 ≤ n < 1,000,000` the same with divisor
1,000 and suffix "K"; and otherwise the decimal integer string.  Whenever
the quotient is exactly representable in binary64 (in particular when
`125 ∣ n` in the K branch, or `15625 ∣ n` with `n < 2^53` in the M
branch), this agrees with the exact rounded-to-one-decimal value; at
inexact decimal ties it can differ, e.g. 1150 ↦ "1.1K". -/
theorem C5_formatNumber_amended (n : Nat) :
    (1000000 ≤ n → formatNumber n = stripDot0 (jsToFixed1 n 1000000) ++ "M") ∧
    (1000 ≤ n → n < 1000000 → formatNumber n = stripDot0 (jsToFixed1 n 1000) ++ "K") ∧
    (n < 1000 → formatNumber n = natStr n) ∧
    (1000 ≤ n → n < 1000000 → 125 ∣ n →
      stripDot0 (jsToFixed1 n 1000) = specRound1 n 1000) ∧
    (1000000 ≤ n → n < 2 ^ 53 → 15625 ∣ n →
      stripDot0 (jsToFixed1 n 1000000) = specRound1 n 1000000) ∧
    formatNumber 999 = "999" ∧ formatNumber 1000 = "1K" ∧ formatNumber 1500 = "1.5K" ∧
    formatNumber 1000000 = "1M" ∧ formatNumber 2500000 = "2.5M" ∧
    formatNumber 1150 = "1.1K" := by
  refine ⟨fun h => ?_, fun h1 h2 => ?_, fun h => ?_, fun ha hb hc => ?_, fun ha hb hc => ?_,
    by decide, by decide, by decide, by decide, by decide, by decide⟩
  · unfold formatNumber
    rw [if_pos h]
  · unfold formatNumber
    rw [if_neg (by omega), if_pos h1]
  · unfold formatNumber
    rw [if_neg (by omega), if_neg (by omega)]
  · have hbl : bitLen 1000 = 10 := by decide
    have hbn : bitLen n ≤ 20 := bitLen_le (by omega : n < 2 ^ 20)
    have hdvd : ∀ g, 3 ≤ g → 1000 ∣ n * 2 ^ g := by
      intro g hg
      obtain ⟨a, rfl⟩ := hc
      refine ⟨a * 2 ^ (g - 3), ?_⟩
      have e : (2:Nat) ^ g = 2 ^ 3 * 2 ^ (g - 3) := by
        rw [← pow_add]
        congr 1
        omega
      rw [e]
      ring
    have hs : 3 ≤ jsExp n 1000 - 1 ∧ 3 ≤ jsExp n 1000 := by
      unfold jsExp
      rw [hbl]
      omega
    rw [show jsToFixed1 n 1000 = fixedStr (jsTenths n 1000) from rfl,
      jsTenths_exact (by norm_num) (hdvd _ hs.1) (hdvd _ hs.2), stripDot0_fixedStr]
    rfl
  · have hbl : bitLen 1000000 = 20 := by decide
    have hbn : bitLen n ≤ 53 := bitLen_le hb
    have hdvd : ∀ g, 6 ≤ g → 1000000 ∣ n * 2 ^ g := by
      intro g hg
      obtain ⟨a, rfl⟩ := hc
      refine ⟨a * 2 ^ (g - 6), ?_⟩
      have e : (2:Nat) ^ g = 2 ^ 6 * 2 ^ (g - 6) := by
        rw [← pow_add]
        congr 1
        omega
      rw [e]
      ring
    have hs : 6 ≤ jsExp n 1000000 - 1 ∧ 6 ≤ jsExp n 1000000 := by
      unfold jsExp
      rw [hbl]
      omega
    rw [show jsToFixed1 n 1000000 = fixedStr (jsTenths n 1000000) from rfl,
      jsTenths_exact (by norm_num) (hdvd _ hs.1) (hdvd _ hs.2), stripDot0_fixedStr]
    rfl

/-- C5 witness: the spec's 2,500,000 ↦ "2.5M" instance of the
exact-representability agreement clause. -/
theorem C5_formatNumber_witness :
    stripDot0 (jsToFixed1 2500000 1000000) = specRound1 2500000 1000000 :=
  (C5_formatNumber_amended 2500000).2.2.2.2.1 (by norm_num) (by norm_num) (by norm_num)

/-- C7: in every blog post built by `tweetToBlogPost`, `read_time_minutes`
equals `max 1 ⌈word_count / 200⌉`; in particular `word_count ≤ 200` gives
1 and `word_count = 450` gives 3. -/
theorem C7_read_time (fd : String → String) (t : Tweet) (rs : List TweetReply)
    (ir : Bool) (mr : Nat) :
    (tweetToBlogPost fd t rs ir mr).read_time_minutes =
      max 1 (((tweetToBlogPost fd t rs ir mr).word_count + 199) / 200) ∧
    ((tweetToBlogPost fd t rs ir mr).word_count ≤ 200 →
      (tweetToBlogPost fd t rs ir mr).read_time_minutes = 1) ∧
    ((tweetToBlogPost fd t rs ir mr).word_count = 450 →
      (tweetToBlogPost fd t rs ir mr).read_time_minutes = 3) := by
  have h : (tweetToBlogPost fd t rs ir mr).read_time_minutes =
      max 1 (((tweetToBlogPost fd t rs ir mr).word_count + 199) / 200) := rfl
  refine ⟨h, fun hw => ?_, fun hw => ?_⟩ <;> rw [h] <;> omega

/-- C7 witness: a two-word tweet has `word_count ≤ 200`, hence read time 1. -/
theorem C7_read_time_witness :
    (tweetToBlogPost sampleFd (mkSimpleTweet "hello world") [] true 10).word_count ≤ 200 ∧
    (tweetToBlogPost sampleFd (mkSimpleTweet "hello world") [] true 10).read_time_minutes = 1 :=
  ⟨by decide, (C7_read_time sampleFd (mkSimpleTweet "hello world") [] true 10).2.1 (by decide)⟩

/-- C8: whenever the cleaned text (URLs stripped, leading mention run
stripped, hashtags stripped, whitespace collapsed and trimmed) is shorter
than 10 characters, `generateTitle` returns the fixed fallback
"A Thread on X". -/
theorem C8_title_fallback (s : String) (h : (cleanTitle s).data.length < 10) :
    generateTitle s = "A Thread on X" := by
  unfold generateTitle
  rw [if_pos h]

/-- C8 witness: the spec's example input `"@a #b"`. -/
theorem C8_title_fallback_witness :
    (cleanTitle "@a #b").data.length < 10 ∧ generateTitle "@a #b" = "A Thread on X" :=
  ⟨by decide, C8_title_fallback "@a #b" (by decide)⟩

/-- C9: `tweetsToFeed` on the empty sequence yields exactly
`"# Tweet Feed\n\n*0 tweets*\n\n---\n"` — a document whose lines include
the `# Tweet Feed` header and the `*0 tweets*` count line, and none of
whose lines starts a per-post section (`## @...`). -/
theorem C9_empty_feed (fd : String → String) :
    tweetsToFeed fd [] = "# Tweet Feed\n\n*0 tweets*\n\n---\n" ∧
    "# Tweet Feed".data ∈ docLines (tweetsToFeed fd []) ∧
    "*0 tweets*".data ∈ docLines (tweetsToFeed fd []) ∧
    ∀ l ∈ docLines (tweetsToFeed fd []), ¬ "## @".data.isPrefixOf l := by
  have e : tweetsToFeed fd [] = "# Tweet Feed\n\n*0 tweets*\n\n---\n" := rfl
  refine ⟨e, ?_, ?_, ?_⟩ <;> rw [e] <;> decide

/-- C10: a tweet whose `views` is present but zero renders (as Markdown)
identically to the same tweet with `views` absent, and a blog post whose
`engagement.views` is present but zero renders identically to the same
post with `views` absent: both renderers test views for truthiness. -/
theorem C10_views_zero (fd : String → String) (t : Tweet) (p : BlogPost) :
    tweetToMarkdown fd (t.withViews (some 0)) = tweetToMarkdown fd (t.withViews none) ∧
    blogPostToMarkdown { p with engagement := { p.engagement with views := some 0 } } =
      blogPostToMarkdown { p with engagement := { p.engagement with views := none } } := by
  constructor
  · cases t; rfl
  · rfl

/-- C3 counterexample: a video with `duration_ms` absent still renders an
empty parenthesis suffix `" ()"` on its link line — the line is not the
bare link line the claim describes. -/
theorem C3_counterexample :
    mediaItemLines sampleVideoNoDur = ["- [Video](https://video.example/v1) ()"] ∧
    "- [Video](https://video.example/v1) ()" ≠ "- [Video](https://video.example/v1)" :=
  ⟨by decide, by decide⟩

/-- C3 (amended): a video media item renders a link line that always ends
with a parenthesised duration suffix — empty parentheses `" ()"` when
`duration_ms` is absent or zero, and `" (Xs)"` with X the duration rounded
half-up to whole seconds when it is present and nonzero — followed by an
optional thumbnail embed line exactly when a nonempty `thumbnail_url` is
present. -/
theorem C3_video_line_amended (m : TweetMedia) (hv : m.type = .video) :
    ((m.duration_ms = none ∨ m.duration_ms = some 0) →
      (mediaItemLines m).head? = some ("- [Video](" ++ m.url ++ ") ()")) ∧
    (∀ d, m.duration_ms = some d → d ≠ 0 →
      (mediaItemLines m).head? =
        some ("- [Video](" ++ m.url ++ ") (" ++ natStr ((d + 500) / 1000) ++ "s)")) ∧
    (mediaItemLines m).tail =
      (match m.thumbnail_url with
       | some th => if th == "" then [] else ["  ![Thumbnail](" ++ th ++ ")"]
       | none => []) := by
  obtain ⟨ty, url, th, w, hh, dur, alt⟩ := m
  cases hv
  refine ⟨fun hd => ?_, fun d hd hd0 => ?_, rfl⟩
  · have : durationSuffix dur = "" := by
      rcases hd with h | h
      · have h2 : dur = none := h
        rw [h2]
        rfl
      · have h2 : dur = some 0 := h
        rw [h2]
        rfl
    simp only [mediaItemLines, this, List.head?]
    congr 1
    apply strExt
    simp [strDataAppend]
  · have : durationSuffix dur = natStr ((d + 500) / 1000) ++ "s" := by
      have h2 : dur = some d := hd
      rw [h2]
      simp only [durationSuffix]
      rw [if_neg (by simpa using hd0)]
    simp only [mediaItemLines, this, List.head?]
    congr 1
    apply strExt
    simp [strDataAppend]

/-- C3 witness: a concrete video with a 1500 ms duration renders the
rounded suffix `(2s)`. -/
theorem C3_video_line_witness :
    (mediaItemLines { sampleVideoNoDur with duration_ms := some 1500 }).head? =
      some ("- [Video](" ++ "https://video.example/v1" ++ ") (" ++ natStr ((1500 + 500) / 1000) ++ "s)") :=
  (C3_video_line_amended { sampleVideoNoDur with duration_ms := some 1500 } rfl).2.1
    1500 rfl (by decide)

/-- C4: the Poll section renders, per option, a line with its label,
percentage and formatted vote count, followed by a bar of exactly
`round(percentage / 5)` `=` characters; at 100% the bar is 20 characters,
at 47% it is 9. -/
theorem C4_poll_bar (t : Tweet) (p : TweetPoll) (hp : t.poll = some p) :
    pollSecLines t = "### Poll" ::
      (p.options.flatMap pollOptionLines ++
        ["Total votes: " ++ formatNumber p.total_votes ++ " | Status: " ++ p.voting_status,
         ""]) ∧
    (∀ o : PollOption, pollOptionLines o =
      ["- " ++ o.label ++ ": " ++ natStr o.percentage ++ "% (" ++ formatNumber o.votes ++
         " votes)",
       "  [" ++ String.mk (List.replicate (pollBarLen o.percentage) '=') ++ "]"] ∧
      (String.mk (List.replicate (pollBarLen o.percentage) '=')).length =
        pollBarLen o.percentage) ∧
    pollBarLen 100 = 20 ∧ pollBarLen 47 = 9 := by
  refine ⟨?_, fun o => ⟨rfl, ?_⟩, rfl, rfl⟩
  · simp [pollSecLines, hp]
  · show (List.replicate (pollBarLen o.percentage) '=').length = pollBarLen o.percentage
    simp

/-- C4 witness: the sample poll (options at 47% and 100%) rendered in full,
with bars of 9 and 20 characters. -/
theorem C4_poll_bar_witness :
    pollSecLines samplePollTweet = "### Poll" ::
      (samplePoll.options.flatMap pollOptionLines ++
        ["Total votes: " ++ formatNumber samplePoll.total_votes ++ " | Status: " ++
           samplePoll.voting_status, ""]) :=
  (C4_poll_bar samplePollTweet samplePoll rfl).1

/-- 30 `a`s, one space (index 30), then 50 `b`s: its cleaned form is
itself, 81 characters, no sentence terminator. -/
def sampleLongSpaceAt30 : String :=
  String.mk (List.replicate 30 'a' ++ ' ' :: List.replicate 50 'b')

/-- 40 `a`s, one space (index 40), then 45 `b`s: its cleaned form is
itself, 86 characters, no sentence terminator. -/
def sampleLongSpaceAt40 : String :=
  String.mk (List.replicate 40 'a' ++ ' ' :: List.replicate 45 'b')

/-- C2 counterexample: an input satisfying all of the claim's conditions
whose 60-character truncation has its last space at exactly index 30 —
the claim ("at or after position 30") would backtrack to that space, but
`generateTitle` (which requires the index to exceed 30) does not and
returns the plain 60-character prefix plus `"..."` instead. -/
theorem C2_counterexample :
    10 ≤ (cleanTitle sampleLongSpaceAt30).data.length ∧
    firstSentenceOf (cleanTitle sampleLongSpaceAt30).data =
      some ((cleanTitle sampleLongSpaceAt30).data) ∧
    80 < (cleanTitle sampleLongSpaceAt30).data.length ∧
    60 < (cleanTitle sampleLongSpaceAt30).data.length ∧
    lastSpaceIdx ((cleanTitle sampleLongSpaceAt30).data.take 60) = some 30 ∧
    generateTitle sampleLongSpaceAt30 ≠
      String.mk (((cleanTitle sampleLongSpaceAt30).data.take 60).take 30) ++ "..." ∧
    generateTitle sampleLongSpaceAt30 =
      String.mk ((cleanTitle sampleLongSpaceAt30).data.take 60) ++ "..." := by
  refine ⟨?_, ?_, ?_, ?_, ?_, ?_, ?_⟩ <;> decide

/-- C2 (amended): under the claim's conditions (cleaned text at least 10
characters, first-sentence match longer than 80 characters or absent,
cleaned length over 60), `generateTitle` truncates to 60 characters and
backtracks to the last space only when that space's index is strictly
greater than 30 (not "at or after position 30"), returning the text up to
that space plus `"..."`. -/
theorem C2_truncation_amended (s : String)
    (h10 : ¬ (cleanTitle s).data.length < 10)
    (hfs : firstSentenceOf (cleanTitle s).data = none ∨
      ∃ fs, firstSentenceOf (cleanTitle s).data = some fs ∧ 80 < fs.length)
    (h60 : 60 < (cleanTitle s).data.length)
    (i : Nat) (hi : lastSpaceIdx ((cleanTitle s).data.take 60) = some i) (h30 : 30 < i) :
    generateTitle s = String.mk (((cleanTitle s).data.take 60).take i) ++ "..." := by
  have htr : titleTrunc (cleanTitle s).data =
      String.mk (((cleanTitle s).data.take 60).take i) ++ "..." := by
    unfold titleTrunc
    rw [if_pos h60, hi]
    show (if 30 < i then String.mk (((cleanTitle s).data.take 60).take i) ++ "..."
      else String.mk ((cleanTitle s).data.take 60) ++ "...") =
      String.mk (((cleanTitle s).data.take 60).take i) ++ "..."
    rw [if_pos h30]
  unfold generateTitle
  rw [if_neg h10]
  rcases hfs with hn | ⟨fs, hsome, h80⟩
  · rw [hn]
    exact htr
  · rw [hsome]
    show (if fs.length ≤ 80 then String.mk (jsTrim fs) else titleTrunc (cleanTitle s).data) =
      String.mk (((cleanTitle s).data.take 60).take i) ++ "..."
    rw [if_neg (by omega)]
    exact htr

set_option maxRecDepth 100000 in
/-- C2 witness: last space of the truncation at index 40 (> 30), so the
backtracking branch fires. -/
theorem C2_truncation_witness :
    generateTitle sampleLongSpaceAt40 =
      String.mk (((cleanTitle sampleLongSpaceAt40).data.take 60).take 40) ++ "..." :=
  C2_truncation_amended sampleLongSpaceAt40 (by decide)
    (Or.inr ⟨(cleanTitle sampleLongSpaceAt40).data, by decide, by decide⟩)
    (by decide) 40 (by decide) (by decide)

/-! ## Lemmas for the word-count analysis (C1) -/

theorem jsSplitWs_ne_nil (l : List Char) : jsSplitWs l ≠ [] := by
  induction l with
  | nil => simp [jsSplitWs]
  | cons c cs ih =>
    by_cases hc : isWs c
    · cases cs with
      | nil => simp [jsSplitWs, hc]
      | cons d cs2 =>
        by_cases hd : isWs d
        · simpa [jsSplitWs, hc, hd] using ih
        · simp [jsSplitWs, hc, hd]
    · rcases h : jsSplitWs cs with _ | ⟨p, ps⟩
      · simp [jsSplitWs, hc, h]
      · simp [jsSplitWs, hc, h]

theorem wsRunsAux_false_ws {c : Char} {cs : List Char} (hc : isWs c = true) :
    wsRunsAux false (c :: cs) = 1 + wsRunsAux true cs := by
  simp [wsRunsAux, hc]

theorem wsRunsAux_true_ws {c : Char} {cs : List Char} (hc : isWs c = true) :
    wsRunsAux true (c :: cs) = wsRunsAux true cs := by
  simp [wsRunsAux, hc]

theorem wsRunsAux_nws (p : Bool) {c : Char} {cs : List Char} (hc : ¬ isWs c = true) :
    wsRunsAux p (c :: cs) = wsRunsAux false cs := by
  cases p <;> simp [wsRunsAux, hc]

theorem nonWsRunsAux_ws (p : Bool) {c : Char} {cs : List Char} (hc : isWs c = true) :
    nonWsRunsAux p (c :: cs) = nonWsRunsAux false cs := by
  cases p <;> simp [nonWsRunsAux, hc]

theorem nonWsRunsAux_false_nws {c : Char} {cs : List Char} (hc : ¬ isWs c = true) :
    nonWsRunsAux false (c :: cs) = 1 + nonWsRunsAux true cs := by
  simp [nonWsRunsAux, hc]

theorem nonWsRunsAux_true_nws {c : Char} {cs : List Char} (hc : ¬ isWs c = true) :
    nonWsRunsAux true (c :: cs) = nonWsRunsAux true cs := by
  simp [nonWsRunsAux, hc]

/-- `split(/\s+/)` yields one more piece than there are maximal
whitespace runs. -/
theorem length_jsSplitWs (l : List Char) :
    (jsSplitWs l).length = wsRunsAux false l + 1 := by
  induction l with
  | nil => rfl
  | cons c cs ih =>
    by_cases hc : isWs c
    · cases cs with
      | nil => simp [jsSplitWs, wsRunsAux, hc]
      | cons d cs2 =>
        by_cases hd : isWs d
        · have e1 : jsSplitWs (c :: d :: cs2) = jsSplitWs (d :: cs2) := by
            simp [jsSplitWs, hc, hd]
          rw [e1, ih, wsRunsAux_false_ws hc, wsRunsAux_true_ws hd, wsRunsAux_false_ws hd]
        · have e1 : jsSplitWs (c :: d :: cs2) = [] :: jsSplitWs (d :: cs2) := by
            simp [jsSplitWs, hc, hd]
          rw [e1, List.length_cons, ih, wsRunsAux_false_ws hc, wsRunsAux_nws true hd,
            wsRunsAux_nws false hd]
          omega
    · rcases h : jsSplitWs cs with _ | ⟨p, ps⟩
      · exact absurd h (jsSplitWs_ne_nil cs)
      · have e1 : jsSplitWs (c :: cs) = (c :: p) :: ps := by
          simp [jsSplitWs, hc, h]
        rw [h] at ih
        rw [e1, wsRunsAux_nws false hc]
        simpa using ih

theorem lastWs_cons {rest : List Char} (a : Char) (h : rest ≠ []) :
    lastWs (a :: rest) = lastWs rest := by
  cases rest with
  | nil => exact absurd rfl h
  | cons b bs => rfl

theorem lastWs_append_single (l : List Char) (c : Char) :
    lastWs (l ++ [c]) = isWs c := by
  induction l with
  | nil => rfl
  | cons a l ih =>
    rw [List.cons_append, lastWs_cons a (by simp), ih]

/-- Whitespace runs and non-whitespace runs alternate: starting inside a
whitespace run (resp. fresh), their counts line up when the final
character is whitespace. -/
theorem runs_alt (l : List Char) (hl : lastWs l = true) :
    wsRunsAux true l = nonWsRunsAux false l ∧
    wsRunsAux false l = nonWsRunsAux true l + 1 := by
  induction l with
  | nil => simp [lastWs] at hl
  | cons c cs ih =>
    cases cs with
    | nil =>
      have hc : isWs c = true := by simpa [lastWs] using hl
      constructor
      · rw [wsRunsAux_true_ws hc, nonWsRunsAux_ws false hc]
        rfl
      · rw [wsRunsAux_false_ws hc, nonWsRunsAux_ws true hc]
        rfl
    | cons d cs2 =>
      have hl2 : lastWs (d :: cs2) = true := by
        rw [lastWs_cons c (by simp)] at hl
        exact hl
      have ih2 := ih hl2
      by_cases hc : isWs c
      · constructor
        · rw [wsRunsAux_true_ws hc, nonWsRunsAux_ws false hc, ih2.1]
        · rw [wsRunsAux_false_ws hc, nonWsRunsAux_ws true hc, ih2.1]
          omega
      · constructor
        · rw [wsRunsAux_nws true hc, nonWsRunsAux_false_nws hc, ih2.2]
          omega
        · rw [wsRunsAux_nws false hc, nonWsRunsAux_true_nws hc, ih2.2]

/-- For a string ending in whitespace, the number of whitespace runs is
the number of non-whitespace runs, plus one when it also starts with
whitespace. -/
theorem wsRuns_eq (l : List Char) (hl : lastWs l = true) :
    wsRunsAux false l = nonWsRunsAux false l + leadWsCount l := by
  cases l with
  | nil => simp [lastWs] at hl
  | cons c cs =>
    by_cases hc : isWs c
    · cases cs with
      | nil =>
        rw [wsRunsAux_false_ws hc, nonWsRunsAux_ws false hc]
        simp [leadWsCount, hc, wsRunsAux, nonWsRunsAux]
      | cons d cs2 =>
        have hl2 : lastWs (d :: cs2) = true := by
          rw [lastWs_cons c (by simp)] at hl
          exact hl
        have h1 := (runs_alt (d :: cs2) hl2).1
        rw [wsRunsAux_false_ws hc, nonWsRunsAux_ws false hc, h1]
        simp [leadWsCount, hc]
        omega
    · cases cs with
      | nil =>
        have : lastWs [c] = isWs c := rfl
        rw [this] at hl
        exact absurd hl hc
      | cons d cs2 =>
        have hl2 : lastWs (d :: cs2) = true := by
          rw [lastWs_cons c (by simp)] at hl
          exact hl
        have h2 := (runs_alt (d :: cs2) hl2).2
        rw [wsRunsAux_nws false hc, nonWsRunsAux_false_nws hc, h2]
        simp [leadWsCount, hc]
        omega

theorem joinNl_cons (s : String) {rest : List String} (h : rest ≠ []) :
    joinNl (s :: rest) = s ++ "\n" ++ joinNl rest := by
  cases rest with
  | nil => exact absurd rfl h
  | cons a as => rfl

/-- Appending a final empty part appends a final newline to the join. -/
theorem joinNl_append_empty (x : String) (xs : List String) :
    (joinNl ((x :: xs) ++ [""])).data = (joinNl (x :: xs)).data ++ ['\n'] := by
  induction xs generalizing x with
  | nil => simp [joinNl, strDataAppend]
  | cons y ys ih =>
    rw [List.cons_append, joinNl_cons x (by simp), joinNl_cons x (by simp)]
    simp only [strDataAppend, ih y]
    simp

/-- "Is empty or ends with an empty string": the shape of every optional
content block of `tweetToBlogPost`. -/
theorem eon_append {a b : List String}
    (ha : a = [] ∨ ∃ ys, a = ys ++ [""]) (hb : b = [] ∨ ∃ ys, b = ys ++ [""]) :
    a ++ b = [] ∨ ∃ ys, a ++ b = ys ++ [""] := by
  rcases hb with rfl | ⟨ys, rfl⟩
  · simpa using ha
  · right
    exact ⟨a ++ ys, by simp⟩

theorem eon_blogMediaParts (m : TweetMedia) :
    blogMediaParts m = [] ∨ ∃ ys, blogMediaParts m = ys ++ [""] := by
  rcases m with ⟨ty, url, th, w, h, dur, alt⟩
  cases ty with
  | photo => exact Or.inr ⟨["![](" ++ url ++ ")"], rfl⟩
  | video => exact Or.inr ⟨["[Watch Video](" ++ url ++ ")"], rfl⟩
  | animated_gif => exact Or.inl rfl

theorem eon_blogMediaSec (t : Tweet) :
    blogMediaSec t = [] ∨ ∃ ys, blogMediaSec t = ys ++ [""] := by
  unfold blogMediaSec
  cases hm : t.media with
  | none => exact Or.inl rfl
  | some ms =>
    clear hm
    show ms.flatMap blogMediaParts = [] ∨ ∃ ys, ms.flatMap blogMediaParts = ys ++ [""]
    induction ms with
    | nil => exact Or.inl rfl
    | cons m rest ih =>
      rw [List.flatMap_cons]
      exact eon_append (eon_blogMediaParts m) ih

theorem eon_blogPollSec (t : Tweet) :
    blogPollSec t = [] ∨ ∃ ys, blogPollSec t = ys ++ [""] := by
  unfold blogPollSec
  cases t.poll with
  | none => exact Or.inl rfl
  | some p =>
    right
    refine ⟨["## Poll Results", ""] ++
      p.options.map (fun o => "- **" ++ o.label ++ "**: " ++ natStr o.percentage ++ "%") ++
      ["", "*" ++ formatNumber p.total_votes ++ " total votes*"], ?_⟩
    simp [blogPollParts]

theorem eon_blogQuoteSec (t : Tweet) :
    blogQuoteSec t = [] ∨ ∃ ys, blogQuoteSec t = ys ++ [""] := by
  unfold blogQuoteSec
  cases t.quoted_tweet with
  | none => exact Or.inl rfl
  | some q =>
    exact Or.inr ⟨["---", "", "> **@" ++ q.author.username ++ "** wrote:",
      "> " ++ quoteJoin q.text], rfl⟩

/-- The content parts of `tweetToBlogPost` always consist of the tweet
text followed by parts ending in an empty string, so the joined content
always ends in a newline. -/
theorem blogContentParts_ends (t : Tweet) :
    ∃ xs, blogContentParts t = (t.text :: xs) ++ [""] := by
  have h := eon_append (eon_append (eon_blogMediaSec t) (eon_blogPollSec t)) (eon_blogQuoteSec t)
  unfold blogContentParts
  rcases h with h | ⟨ys, h⟩
  · refine ⟨[], ?_⟩
    rw [List.append_assoc, List.append_assoc, ← List.append_assoc (blogMediaSec t), h]
    rfl
  · refine ⟨"" :: ys, ?_⟩
    rw [List.append_assoc, List.append_assoc, ← List.append_assoc (blogMediaSec t), h]
    simp

/-- C1 counterexample: for the two-word tweet text "hello world" the blog
content is `"hello world\n"`, whose whitespace-token count is 2, but the
recorded `word_count` is 3 (the JavaScript split keeps a trailing empty
piece for the final newline). -/
theorem C1_counterexample :
    (tweetToBlogPost sampleFd (mkSimpleTweet "hello world") [] true 10).word_count = 3 ∧
    wsTokenCount (tweetToBlogPost sampleFd (mkSimpleTweet "hello world") [] true 10).content = 2 ∧
    (tweetToBlogPost sampleFd (mkSimpleTweet "hello world") [] true 10).word_count ≠
      wsTokenCount (tweetToBlogPost sampleFd (mkSimpleTweet "hello world") [] true 10).content := by
  refine ⟨?_, ?_, ?_⟩ <;> decide

/-- C1 (amended): `word_count` is the length of the JavaScript
whitespace-split of `content`, which exceeds the whitespace-token count
of `content` by one (for the newline `content` always ends with), plus
one more when `content` starts with whitespace. -/
theorem C1_word_count_amended (fd : String → String) (t : Tweet) (rs : List TweetReply)
    (ir : Bool) (mr : Nat) :
    (tweetToBlogPost fd t rs ir mr).word_count =
      wsTokenCount (tweetToBlogPost fd t rs ir mr).content + 1 +
        leadWsCount (tweetToBlogPost fd t rs ir mr).content.data := by
  have hc : (tweetToBlogPost fd t rs ir mr).content = joinNl (blogContentParts t) := rfl
  have hw : (tweetToBlogPost fd t rs ir mr).word_count =
      (jsSplitWs (joinNl (blogContentParts t)).data).length := rfl
  obtain ⟨xs, hxs⟩ := blogContentParts_ends t
  have hdata : (joinNl (blogContentParts t)).data =
      (joinNl (t.text :: xs)).data ++ ['\n'] := by
    rw [hxs]
    exact joinNl_append_empty t.text xs
  have hlast : lastWs (joinNl (blogContentParts t)).data = true := by
    rw [hdata, lastWs_append_single]
    decide
  rw [hw, hc, length_jsSplitWs, wsRuns_eq _ hlast]
  unfold wsTokenCount
  omega

/-! ## Lemmas for section omission (C6) -/

/-- The four conditional section headers of `tweetToMarkdown`. -/
def sectionHeaders : List String :=
  ["### Media", "### Poll", "### Quoted Tweet", "### Links"]

theorem splitLines_ne_nil (l : List Char) : splitLines l ≠ [] := by
  cases l with
  | nil => simp [splitLines]
  | cons c cs =>
    by_cases hc : (c == '\n') = true
    · simp [splitLines, hc]
    · rcases h : splitLines cs with _ | ⟨p, ps⟩ <;> simp [splitLines, hc, h]

theorem splitLines_no_nl {l : List Char} (h : '\n' ∉ l) : splitLines l = [l] := by
  induction l with
  | nil => rfl
  | cons c cs ih =>
    have hc : ¬ (c == '\n') = true := by
      simp only [beq_iff_eq]
      rintro rfl
      exact h (List.mem_cons_self _ _)
    have h2 : '\n' ∉ cs := fun hx => h (List.mem_cons_of_mem _ hx)
    rw [show splitLines (c :: cs) =
      (if (c == '\n') = true then [] :: splitLines cs
       else match splitLines cs with
            | [] => [[c]]
            | l :: ls => (c :: l) :: ls) from rfl]
    rw [if_neg hc, ih h2]

theorem splitLines_append_nl (a b : List Char) :
    splitLines (a ++ '\n' :: b) = splitLines a ++ splitLines b := by
  induction a with
  | nil => simp [splitLines]
  | cons c a ih =>
    by_cases hc : (c == '\n') = true
    · have : c = '\n' := by simpa using hc
      subst this
      simp only [List.cons_append]
      rw [show splitLines ('\n' :: (a ++ '\n' :: b)) = [] :: splitLines (a ++ '\n' :: b) from rfl,
        show splitLines ('\n' :: a) = [] :: splitLines a from rfl, ih]
      rfl
    · rcases h : splitLines a with _ | ⟨p, ps⟩
      · exact absurd h (splitLines_ne_nil a)
      · have e1 : splitLines (c :: a) = (c :: p) :: ps := by
          simp [splitLines, hc, h]
        have e2 : splitLines (c :: (a ++ '\n' :: b)) = (c :: (p ++ [])) :: (ps ++ splitLines b) ∨
            True := Or.inr trivial
        simp only [List.cons_append]
        rw [show splitLines (c :: (a ++ '\n' :: b)) =
          (if (c == '\n') = true then [] :: splitLines (a ++ '\n' :: b)
           else match splitLines (a ++ '\n' :: b) with
                | [] => [[c]]
                | l :: ls => (c :: l) :: ls) from rfl]
        rw [if_neg hc, ih, h, e1]
        rfl

/-- The document lines of a join are the concatenated lines of the parts. -/
theorem splitLines_joinNl (L : List String) (hL : L ≠ []) :
    splitLines (joinNl L).data = L.flatMap (fun s => splitLines s.data) := by
  induction L with
  | nil => exact absurd rfl hL
  | cons s rest ih =>
    cases rest with
    | nil => simp [joinNl]
    | cons s2 rest2 =>
      rw [joinNl_cons s (by simp)]
      have hdata : (s ++ "\n" ++ joinNl (s2 :: rest2)).data =
          s.data ++ '\n' :: (joinNl (s2 :: rest2)).data := by
        simp [strDataAppend]
      rw [hdata, splitLines_append_nl, ih (by simp)]
      simp

theorem noNl_append {a b : String} (ha : '\n' ∉ a.data) (hb : '\n' ∉ b.data) :
    '\n' ∉ (a ++ b).data := by
  rw [strDataAppend]
  simp only [List.mem_append]
  rintro (h | h)
  · exact ha h
  · exact hb h

theorem natDigits_mem {fuel n : Nat} {c : Char} (h : c ∈ natDigits fuel n) :
    ∃ d, d < 10 ∧ c = digitChar d := by
  induction fuel generalizing n with
  | zero => simp [natDigits] at h
  | succ f ih =>
    by_cases hn : n < 10
    · simp [natDigits, hn] at h
      exact ⟨n, hn, h⟩
    · simp [natDigits, hn] at h
      rcases h with h | h
      · exact ih h
      · exact ⟨n % 10, Nat.mod_lt _ (by norm_num), h⟩

theorem noNl_natStr (n : Nat) : '\n' ∉ (natStr n).data := by
  intro h
  obtain ⟨d, hd, he⟩ := natDigits_mem h
  revert he
  interval_cases d <;> decide

theorem noNl_stripDot0 {s : String} (h : '\n' ∉ s.data) : '\n' ∉ (stripDot0 s).data := by
  unfold stripDot0
  split
  · intro hx
    exact h (List.take_subset _ _ hx)
  · exact h

theorem noNl_fixedStr (t : Nat) : '\n' ∉ (fixedStr t).data :=
  noNl_append (noNl_append (noNl_natStr _) (by decide)) (noNl_natStr _)

theorem noNl_formatNumber (n : Nat) : '\n' ∉ (formatNumber n).data := by
  unfold formatNumber
  split
  · exact noNl_append (noNl_stripDot0 (noNl_fixedStr _)) (by decide)
  · split
    · exact noNl_append (noNl_stripDot0 (noNl_fixedStr _)) (by decide)
    · exact noNl_natStr n

theorem noNl_viewsSuffix (v : Option Nat) : '\n' ∉ (viewsSuffix v).data := by
  cases v with
  | none => decide
  | some n =>
    by_cases hn : (n == 0) = true
    · rw [show viewsSuffix (some n) = "" from by simp [viewsSuffix, hn]]
      decide
    · rw [show viewsSuffix (some n) = " | " ++ formatNumber n ++ " views" from by
        simp [viewsSuffix, hn]]
      exact noNl_append (noNl_append (by decide) (noNl_formatNumber n)) (by decide)

theorem noNl_joinWith {sep : String} {parts : List String} (hsep : '\n' ∉ sep.data)
    (hp : ∀ p ∈ parts, '\n' ∉ p.data) : '\n' ∉ (joinWith sep parts).data := by
  induction parts with
  | nil =>
    rw [show joinWith sep [] = "" from rfl]
    decide
  | cons p rest ih =>
    cases rest with
    | nil => exact hp p (by simp)
    | cons q rest2 =>
      rw [show joinWith sep (p :: q :: rest2) = p ++ sep ++ joinWith sep (q :: rest2) from rfl]
      exact noNl_append (noNl_append (hp p (by simp)) hsep)
        (ih (fun x hx => hp x (List.mem_cons_of_mem _ hx)))

theorem hdr_ne_hash2 {hdr : String} (hh : hdr ∈ sectionHeaders) (rest : List Char) :
    ('#' :: '#' :: ' ' :: rest) ≠ hdr.data := by
  fin_cases hh <;>
    (intro h
     injection h with h1 h
     injection h with h2 h
     injection h with h3 _
     exact absurd h3 (by decide))

theorem hdr_ne_star {hdr : String} (hh : hdr ∈ sectionHeaders) (rest : List Char) :
    ('*' :: rest) ≠ hdr.data := by
  fin_cases hh <;>
    (intro h
     injection h with h1 _
     exact absurd h1 (by decide))

/-- Growing a string on the right keeps its head character. -/
theorem star_head_append {a : String} (b : String) (h : ∃ tl, a.data = '*' :: tl) :
    ∃ tl, (a ++ b).data = '*' :: tl := by
  obtain ⟨tl, h⟩ := h
  exact ⟨tl ++ b.data, by rw [strDataAppend, h]; rfl⟩

theorem hdr_ne_of_star_head {s : String} {hdr : String} (hh : hdr ∈ sectionHeaders)
    (h : ∃ tl, s.data = '*' :: tl) : hdr.data ≠ s.data := by
  obtain ⟨tl, h⟩ := h
  rw [h]
  exact fun he => hdr_ne_star hh tl he.symm

theorem hdr_notin_empty {hdr : String} (hh : hdr ∈ sectionHeaders) :
    hdr.data ∉ splitLines ("" : String).data := by
  fin_cases hh <;> decide

theorem hdr_notin_rule {hdr : String} (hh : hdr ∈ sectionHeaders) :
    hdr.data ∉ splitLines ("---" : String).data := by
  fin_cases hh <;> decide

/-- C6: a Post Record with no media, no poll, no quoted tweet and no link
previews (and whose free-form string fields neither contain newlines nor
themselves spell one of the section headers as a line) renders a document
none of whose lines is one of `### Media`, `### Poll`, `### Quoted Tweet`,
`### Links`; and omitting any single one of these fields removes exactly
its section from the emitted line sequence, leaving every other section
and separator unchanged. -/
theorem C6_section_omission (fd : String → String) (t : Tweet)
    (hm : t.media = none) (hp : t.poll = none) (hq : t.quoted_tweet = none)
    (hu : t.urls = none)
    (hun : '\n' ∉ t.author.username.data) (hnm : '\n' ∉ t.author.name.data)
    (hfd : '\n' ∉ (fd t.created_at).data) (hid : '\n' ∉ t.id.data)
    (hht : ∀ tags, t.hashtags = some tags → ∀ h ∈ tags, '\n' ∉ h.data)
    (htext : ∀ hdr ∈ sectionHeaders, ∀ ln ∈ splitLines t.text.data, ln ≠ hdr.data) :
    (∀ hdr ∈ sectionHeaders, hdr.data ∉ docLines (tweetToMarkdown fd t)) ∧
    (∀ u : Tweet,
      tweetToMarkdownLines fd (u.withMedia none) =
        headerLines u ++ pollSecLines u ++ quoteSecLines u ++ linksSecLines u ++
          engagementLines u ++ metaLines fd u ∧
      tweetToMarkdownLines fd (u.withPoll none) =
        headerLines u ++ mediaSecLines u ++ quoteSecLines u ++ linksSecLines u ++
          engagementLines u ++ metaLines fd u ∧
      tweetToMarkdownLines fd (u.withQuoted none) =
        headerLines u ++ mediaSecLines u ++ pollSecLines u ++ linksSecLines u ++
          engagementLines u ++ metaLines fd u ∧
      tweetToMarkdownLines fd (u.withUrls none) =
        headerLines u ++ mediaSecLines u ++ pollSecLines u ++ quoteSecLines u ++
          engagementLines u ++ metaLines fd u) := by
  constructor
  · intro hdr hh hmem
    have hsm : mediaSecLines t = [] := by unfold mediaSecLines; rw [hm]
    have hsp : pollSecLines t = [] := by unfold pollSecLines; rw [hp]
    have hsq : quoteSecLines t = [] := by unfold quoteSecLines; rw [hq]
    have hsl : linksSecLines t = [] := by unfold linksSecLines; rw [hu]
    have hlines : tweetToMarkdownLines fd t =
        headerLines t ++ engagementLines t ++ metaLines fd t := by
      unfold tweetToMarkdownLines
      rw [hsm, hsp, hsq, hsl]
      simp
    have hLne : tweetToMarkdownLines fd t ≠ [] := by
      rw [hlines]
      simp [headerLines]
    have hdoc : docLines (tweetToMarkdown fd t) =
        (tweetToMarkdownLines fd t).flatMap (fun s => splitLines s.data) := by
      unfold tweetToMarkdown docLines
      exact splitLines_joinNl _ hLne
    rw [hdoc, hlines] at hmem
    rw [List.mem_flatMap] at hmem
    obtain ⟨s, hs, hins⟩ := hmem
    simp only [headerLines, engagementLines, metaLines, List.append_assoc, List.mem_append,
      List.mem_cons, List.not_mem_nil, or_false, List.mem_singleton] at hs
    rcases hs with (rfl | rfl | rfl | rfl) | ((rfl | rfl | rfl) | (rfl | hsc | rfl))
    · -- the author header line, which starts "## @"
      have hnl : '\n' ∉ ("## @" ++ t.author.username ++ " (" ++ t.author.name ++ ")").data :=
        noNl_append (noNl_append (noNl_append (noNl_append (by decide) hun)
          (by decide)) hnm) (by decide)
      rw [splitLines_no_nl hnl] at hins
      simp only [List.mem_singleton] at hins
      have hform : ("## @" ++ t.author.username ++ " (" ++ t.author.name ++ ")").data =
          '#' :: '#' :: ' ' :: '@' ::
            (t.author.username.data ++ " (".data ++ t.author.name.data ++ ")".data) := by
        simp [strDataAppend]
      rw [hform] at hins
      exact absurd hins.symm (hdr_ne_hash2 hh _)
    · exact hdr_notin_empty hh hins
    · exact absurd rfl (htext hdr hh _ hins)
    · exact hdr_notin_empty hh hins
    · exact hdr_notin_rule hh hins
    · -- the engagement summary line, which starts with '*'
      have hnl : '\n' ∉ ("**Engagement**: " ++ formatNumber t.likes ++ " likes | " ++
          formatNumber t.retweets ++ " retweets | " ++ formatNumber t.replies ++
          " replies" ++ viewsSuffix t.views).data := by
        repeat apply noNl_append
        all_goals first
          | exact noNl_formatNumber _
          | exact noNl_viewsSuffix _
          | decide
      rw [splitLines_no_nl hnl] at hins
      simp only [List.mem_singleton] at hins
      refine absurd hins (hdr_ne_of_star_head hh ?_)
      repeat apply star_head_append
      exact ⟨_, rfl⟩
    · exact hdr_notin_empty hh hins
    · -- the posted-date line, which starts with '*'
      have hnl : '\n' ∉ ("**Posted**: " ++ fd t.created_at).data :=
        noNl_append (by decide) hfd
      rw [splitLines_no_nl hnl] at hins
      simp only [List.mem_singleton] at hins
      refine absurd hins (hdr_ne_of_star_head hh ?_)
      repeat apply star_head_append
      exact ⟨_, rfl⟩
    · -- the optional hashtags line, which starts with '*'
      rcases hht5 : t.hashtags with _ | tags
      · rw [hht5] at hsc
        simp at hsc
      · rw [hht5] at hsc
        have hsc2 : s ∈ (if 0 < tags.length then
            ["**Hashtags**: " ++ joinWith " " (tags.map (fun h => "#" ++ h))] else []) := hsc
        by_cases hlen : 0 < tags.length
        · rw [if_pos hlen] at hsc2
          simp only [List.mem_singleton] at hsc2
          subst hsc2
          have hnl : '\n' ∉ ("**Hashtags**: " ++
              joinWith " " (tags.map (fun h => "#" ++ h))).data := by
            apply noNl_append (by decide)
            apply noNl_joinWith (by decide)
            intro p hp0
            simp only [List.mem_map] at hp0
            obtain ⟨h0, hh0, rfl⟩ := hp0
            exact noNl_append (by decide) (hht tags hht5 h0 hh0)
          rw [splitLines_no_nl hnl] at hins
          simp only [List.mem_singleton] at hins
          refine absurd hins (hdr_ne_of_star_head hh ?_)
          repeat apply star_head_append
          exact ⟨_, rfl⟩
        · rw [if_neg hlen] at hsc2
          simp at hsc2
    · -- the source permalink line, which starts with '*'
      have hnl : '\n' ∉ ("**Source**: " ++ buildTweetUrl t.id t.author.username).data := by
        apply noNl_append (by decide)
        unfold buildTweetUrl
        repeat apply noNl_append
        all_goals first | exact hun | exact hid | decide
      rw [splitLines_no_nl hnl] at hins
      simp only [List.mem_singleton] at hins
      refine absurd hins (hdr_ne_of_star_head hh ?_)
      repeat apply star_head_append
      exact ⟨_, rfl⟩
  · intro u
    cases u with
    | mk i tx au ca me po l r rp q v b ci ri ru qt ur ht mn la so =>
      refine ⟨?_, ?_, ?_, ?_⟩ <;>
        simp [tweetToMarkdownLines, Tweet.withMedia, Tweet.withPoll, Tweet.withQuoted,
          Tweet.withUrls, headerLines, mediaSecLines, pollSecLines, quoteSecLines,
          linksSecLines, engagementLines, metaLines, Tweet.media, Tweet.poll,
          Tweet.quoted_tweet, Tweet.urls, Tweet.text, Tweet.author, Tweet.created_at,
          Tweet.likes, Tweet.retweets, Tweet.replies, Tweet.views, Tweet.hashtags, Tweet.id]

set_option maxRecDepth 100000 in
/-- C6 witness: a concrete bare tweet renders with no `### Media` line. -/
theorem C6_section_omission_witness :
    "### Media".data ∉
      docLines (tweetToMarkdown sampleFd (mkSimpleTweet "Just a plain sentence.")) :=
  (C6_section_omission sampleFd (mkSimpleTweet "Just a plain sentence.")
    rfl rfl rfl rfl (by decide) (by decide) (by decide) (by decide)
    (by
      intro tags h
      rw [show (mkSimpleTweet "Just a plain sentence.").hashtags = none from rfl] at h
      exact Option.noConfusion h)
    (by decide)).1 "### Media" (by decide)
